import Mathlib

set_option maxRecDepth 10000

/-
Verification development for the skinDB ingestion pipeline.
The definitions below are shallow embeddings of the Python sources:
  app/ingestion/json_repair.py, app/ingestion/db.py, app/ingestion/models.py,
  app/ingestion/parallel_llama.py, app/ingestion/adaptive_llama.py.
Python strings are modelled as `List Char`; machine floats that only ever
carry exact decimal data are modelled as `Rat`; fallible code returns
`Option`/`Except`.  The Python standard-library `json.loads` (an external
collaborator of json_repair.py) is modelled by `jsonLoads` below, following
the documented strict JSON grammar of `json.decoder` (incl. acceptance of
NaN/Infinity and rejection of raw control characters in strings).
-/

namespace SkinDB

/-- Python regex `\s` / `str.isspace` character class (the source never
sets `re.ASCII`, so the unicode space set applies). -/
def pyIsSpace (c : Char) : Bool :=
  let n := c.toNat
  n == 0x20 || n == 0x09 || n == 0x0A || n == 0x0D || n == 0x0B || n == 0x0C ||
  n == 0x1C || n == 0x1D || n == 0x1E || n == 0x1F || n == 0x85 || n == 0xA0 ||
  n == 0x1680 || decide (0x2000 ≤ n ∧ n ≤ 0x200A) ||
  n == 0x2028 || n == 0x2029 || n == 0x202F || n == 0x205F || n == 0x3000

/-- JSON whitespace accepted by `json.decoder` between tokens. -/
def jsonWs (c : Char) : Bool :=
  c == ' ' || c == '\t' || c == '\n' || c == '\r'

def skipWs (l : List Char) : List Char := l.dropWhile jsonWs

/-- Values produced by `json.loads`.  Numbers keep their lexeme (the claims
never compare distinct lexemes of one numeric value). -/
inductive Json where
  | null : Json
  | bool : Bool → Json
  | num : List Char → Json
  | str : List Char → Json
  | arr : List Json → Json
  | obj : List (List Char × Json) → Json

def isDigitCh (c : Char) : Bool := decide ('0' ≤ c ∧ c ≤ '9')

def hexVal (c : Char) : Option Nat :=
  if decide ('0' ≤ c ∧ c ≤ '9') then some (c.toNat - '0'.toNat)
  else if decide ('a' ≤ c ∧ c ≤ 'f') then some (c.toNat - 'a'.toNat + 10)
  else if decide ('A' ≤ c ∧ c ≤ 'F') then some (c.toNat - 'A'.toNat + 10)
  else none

/-- Decode a JSON string body (the part after the opening quote); returns the
decoded content and the remaining input after the closing quote.  Follows
`json.decoder.py_scanstring` with `strict=True`: raw control characters are
rejected; `\uXXXX` escapes decode, with valid surrogate pairs combined. -/
def surrPair (h1 h2 h3 h4 : Char) : Option Nat :=
  match hexVal h1, hexVal h2, hexVal h3, hexVal h4 with
  | some a, some b, some c, some d => some (((a * 16 + b) * 16 + c) * 16 + d)
  | _, _, _, _ => none

def simpleEscape (e : Char) : Option Char :=
  if e == '"' then some '"'
  else if e == '\\' then some '\\'
  else if e == '/' then some '/'
  else if e == 'b' then some '\x08'
  else if e == 'f' then some '\x0C'
  else if e == 'n' then some '\n'
  else if e == 'r' then some '\r'
  else if e == 't' then some '\t'
  else none

def pStringF : Nat → List Char → Option (List Char × List Char)
  | 0, _ => none
  | _ + 1, [] => none
  | _ + 1, '"' :: rest => some ([], rest)
  | fuel + 1, '\\' :: 'u' :: h1 :: h2 :: h3 :: h4 :: '\\' :: 'u' :: g1 :: g2 :: g3 :: g4 :: rest8 =>
    match surrPair h1 h2 h3 h4 with
    | none => none
    | some n =>
      match surrPair g1 g2 g3 g4 with
      | some m =>
        if decide (0xD800 ≤ n ∧ n ≤ 0xDBFF) ∧ decide (0xDC00 ≤ m ∧ m ≤ 0xDFFF) then
          let cp := 0x10000 + (n - 0xD800) * 0x400 + (m - 0xDC00)
          (fun pr => (Char.ofNat cp :: pr.1, pr.2)) <$> pStringF fuel rest8
        else
          (fun pr => (Char.ofNat n :: pr.1, pr.2)) <$>
            pStringF fuel ('\\' :: 'u' :: g1 :: g2 :: g3 :: g4 :: rest8)
      | none =>
        (fun pr => (Char.ofNat n :: pr.1, pr.2)) <$>
          pStringF fuel ('\\' :: 'u' :: g1 :: g2 :: g3 :: g4 :: rest8)
  | fuel + 1, '\\' :: 'u' :: h1 :: h2 :: h3 :: h4 :: rest4 =>
    match surrPair h1 h2 h3 h4 with
    | none => none
    | some n => (fun pr => (Char.ofNat n :: pr.1, pr.2)) <$> pStringF fuel rest4
  | fuel + 1, '\\' :: e :: rest2 =>
    match simpleEscape e with
    | some ch => (fun pr => (ch :: pr.1, pr.2)) <$> pStringF fuel rest2
    | none => none
  | _ + 1, ['\\'] => none
  | fuel + 1, c :: rest =>
    if decide (c.toNat < 0x20) then none
    else (fun pr => (c :: pr.1, pr.2)) <$> pStringF fuel rest

/-- Decode a JSON string body: the fuel (one unit per consumed escape or
character) is always sufficient at `length + 1`. -/
def pString (l : List Char) : Option (List Char × List Char) :=
  pStringF (l.length + 1) l

/-- Scan a JSON number lexeme per `json.decoder.NUMBER_RE`
(`-?(0|[1-9]\d*)(\.\d+)?([eE][-+]?\d+)?`). -/
def pNumber (l : List Char) : Option (List Char × List Char) :=
  let (sign, l1) : List Char × List Char :=
    match l with
    | '-' :: t => (['-'], t)
    | _ => ([], l)
  match l1 with
  | [] => none
  | c :: t =>
    if ¬ isDigitCh c then none
    else
      let (intPart, l2) : List Char × List Char :=
        if c == '0' then ([c], t)
        else
          let ds := t.takeWhile isDigitCh
          (c :: ds, t.dropWhile isDigitCh)
      let (fracPart, l3) : List Char × List Char :=
        match l2 with
        | '.' :: u =>
          let ds := u.takeWhile isDigitCh
          if ds.isEmpty then ([], l2)
          else ('.' :: ds, u.dropWhile isDigitCh)
        | _ => ([], l2)
      let (expPart, l4) : List Char × List Char :=
        match l3 with
        | e :: u =>
          if e == 'e' || e == 'E' then
            let (sgn, u1) : List Char × List Char :=
              match u with
              | s :: v => if s == '+' || s == '-' then ([s], v) else ([], u)
              | [] => ([], u)
            let ds := u1.takeWhile isDigitCh
            if ds.isEmpty then ([], l3)
            else (e :: (sgn ++ ds), u1.dropWhile isDigitCh)
          else ([], l3)
        | [] => ([], l3)
      some (sign ++ intPart ++ fracPart ++ expPart, l4)

mutual

/-- One JSON value, fuelled recursive-descent mirror of `json.scanner`. -/
def pValue : Nat → List Char → Option (Json × List Char)
  | 0, _ => none
  | fuel + 1, s =>
    match s with
    | [] => none
    | c :: rest =>
      if c == '\x7b' then pObj fuel (skipWs rest)
      else if c == '[' then pArr fuel (skipWs rest)
      else if c == '"' then (fun pr => (Json.str pr.1, pr.2)) <$> pString rest
      else
        match s with
        | 't' :: 'r' :: 'u' :: 'e' :: r => some (Json.bool true, r)
        | 'f' :: 'a' :: 'l' :: 's' :: 'e' :: r => some (Json.bool false, r)
        | 'n' :: 'u' :: 'l' :: 'l' :: r => some (Json.null, r)
        | 'N' :: 'a' :: 'N' :: r => some (Json.num ['N', 'a', 'N'], r)
        | 'I' :: 'n' :: 'f' :: 'i' :: 'n' :: 'i' :: 't' :: 'y' :: r =>
          some (Json.num ['I', 'n', 'f', 'i', 'n', 'i', 't', 'y'], r)
        | '-' :: 'I' :: 'n' :: 'f' :: 'i' :: 'n' :: 'i' :: 't' :: 'y' :: r =>
          some (Json.num ['-', 'I', 'n', 'f', 'i', 'n', 'i', 't', 'y'], r)
        | _ =>
          if c == '-' || isDigitCh c then
            (fun pr => (Json.num pr.1, pr.2)) <$> pNumber s
          else none

/-- Object members, input already past `{` and leading whitespace. -/
def pObj : Nat → List Char → Option (Json × List Char)
  | 0, _ => none
  | fuel + 1, s =>
    match s with
    | '\x7d' :: r => some (Json.obj [], r)
    | _ => pMembers fuel s []

def pMembers : Nat → List Char → List (List Char × Json) → Option (Json × List Char)
  | 0, _, _ => none
  | fuel + 1, s, acc =>
    match s with
    | '"' :: r =>
      match pString r with
      | none => none
      | some (key, r2) =>
        match skipWs r2 with
        | ':' :: r3 =>
          match pValue fuel (skipWs r3) with
          | none => none
          | some (v, r4) =>
            match skipWs r4 with
            | ',' :: r5 => pMembers fuel (skipWs r5) (acc ++ [(key, v)])
            | '\x7d' :: r5 => some (Json.obj (acc ++ [(key, v)]), r5)
            | _ => none
        | _ => none
    | _ => none

/-- Array elements, input already past `[` and leading whitespace. -/
def pArr : Nat → List Char → Option (Json × List Char)
  | 0, _ => none
  | fuel + 1, s =>
    match s with
    | ']' :: r => some (Json.arr [], r)
    | _ => pElems fuel s []

def pElems : Nat → List Char → List Json → Option (Json × List Char)
  | 0, _, _ => none
  | fuel + 1, s, acc =>
    match pValue fuel s with
    | none => none
    | some (v, r) =>
      match skipWs r with
      | ',' :: r2 => pElems fuel (skipWs r2) (acc ++ [v])
      | ']' :: r2 => some (Json.arr (acc ++ [v]), r2)
      | _ => none

end

/-- Model of Python `json.loads` on a text: reject a leading BOM, parse one
value surrounded by optional whitespace, reject trailing data. -/
def jsonLoads (s : List Char) : Option Json :=
  match s with
  | c :: _ =>
    if c.toNat == 0xFEFF then none
    else
      match pValue (4 * s.length + 4) (skipWs s) with
      | some (v, rest) => if (skipWs rest).isEmpty then some v else none
      | none => none
  | [] => none

/-! ### json_repair.py : string helpers (Python `str.find` / `str.rfind`) -/

/-- Python `s.find(c, start)` for a single character needle: index of the first
occurrence at position ≥ `start`, or `None` for Python's `-1`. -/
def findCharFrom (l : List Char) (c : Char) (start : Nat) : Option Nat :=
  go l 0
where
  go : List Char → Nat → Option Nat
    | [], _ => none
    | x :: t, i => if decide (start ≤ i) && (x == c) then some i else go t (i + 1)

/-- Python `s.rfind(c)`: index of the last occurrence of the character. -/
def rfindChar (l : List Char) (c : Char) : Option Nat :=
  go l 0 none
where
  go : List Char → Nat → Option Nat → Option Nat
    | [], _, acc => acc
    | x :: t, i, acc => go t (i + 1) (if x == c then some i else acc)

/-- Python `s.rfind(pat)` for a non-empty needle: start index of its last occurrence. -/
def rfindSub (l pat : List Char) : Option Nat :=
  go l 0 none
where
  go : List Char → Nat → Option Nat → Option Nat
    | s, i, acc =>
      let acc2 := if pat.isPrefixOf s then some i else acc
      match s with
      | [] => acc2
      | _ :: t => go t (i + 1) acc2

/-- Python slice `l[a:b]`. -/
def pySlice (l : List Char) (a b : Nat) : List Char := (l.take b).drop a

/-- Python slice `l[a:]`. -/
def pyDropFrom (l : List Char) (a : Nat) : List Char := l.drop a

def utf8Len (l : List Char) : Nat := l.foldl (fun acc c => acc + c.utf8Size) 0

def dropTailBytesF : Nat → List Char → Nat → List Char
  | 0, l, _ => l
  | _ + 1, [], _ => []
  | fuel + 1, c :: t, maxB =>
    if utf8Len (c :: t) > maxB then dropTailBytesF fuel (c :: t).dropLast maxB else c :: t

/-- Mirror of the `while len(truncated.encode('utf-8')) > max_bytes:
truncated = truncated[:-1]` loop of `try_repair_to_json`; each iteration
drops one character, so fuel `length + 1` is always sufficient. -/
def dropTailBytes (l : List Char) (maxB : Nat) : List Char :=
  dropTailBytesF (l.length + 1) l maxB

/-- Step 1 of `try_repair_to_json`: byte-budget truncation, character safe. -/
def truncateBytes (raw : List Char) (maxB : Nat) : List Char :=
  if utf8Len raw > maxB then dropTailBytes (raw.take maxB) maxB else raw

/-- Characters removed by step 3 of `try_repair_to_json`
(regex `[\x00-\x1F\x7F]`). -/
def isCtrl7f (c : Char) : Bool := c.toNat ≤ 0x1F || c.toNat == 0x7F

def stripTrailingCommasF : Nat → List Char → List Char
  | 0, l => l
  | _ + 1, [] => []
  | fuel + 1, ',' :: rest =>
    match rest.dropWhile pyIsSpace with
    | b :: tail =>
      if b == '\x7d' || b == ']' then b :: stripTrailingCommasF fuel tail
      else ',' :: stripTrailingCommasF fuel rest
    | [] => ',' :: stripTrailingCommasF fuel rest
  | fuel + 1, c :: rest => c :: stripTrailingCommasF fuel rest

/-- Step 4 of `try_repair_to_json`: `re.sub(r',\s*([}\]])', r'\1', s)` —
drop a comma (with trailing whitespace) that immediately precedes a closing
brace or bracket; left-to-right, non-overlapping, like `re.sub`.  Each step
consumes at least one character, so fuel `length + 1` always suffices. -/
def stripTrailingCommas (l : List Char) : List Char :=
  stripTrailingCommasF (l.length + 1) l

/-- The fixed closure text `_repair_truncated_json` appends after the
truncation point (the concatenation of its six `truncated +=` lines). -/
def repairClosure : List Char :=
  ("\n    \x7d\n  \x7d,\n  \"specifications\": \x7b\x7d,\n  \"summarized_review\": " ++
   "\x7b\"pros\": [], \"cons\": [], \"verdict\": \"Partial data - processing incomplete\"\x7d," ++
   "\n  \"citations\": \x7b\x7d\n\x7d").toList

/-- Model of `_repair_truncated_json` from json_repair.py: locate the last
`"summary"` occurrence, take the first quote at offset ≥ 12 from it, then the
next quote after that, truncate there and append the fixed closure. -/
def repairTruncatedJson (jsonStr : List Char) : Option (List Char) :=
  match rfindSub jsonStr ("\"summary\"".toList) with
  | none => none
  | some platformsEnd =>
    match findCharFrom jsonStr '"' (platformsEnd + ("\"summary\": \"".toList).length) with
    | none => none
    | some q1 =>
      match findCharFrom jsonStr '"' (q1 + 1) with
      | none => none
      | some summaryEnd => some (jsonStr.take (summaryEnd + 1) ++ repairClosure)

/-- Model of `try_repair_to_json` from json_repair.py. -/
def tryRepairToJson (raw : List Char) (maxBytes : Nat) : Option Json :=
  if raw.isEmpty then none
  else
    let raw := truncateBytes raw maxBytes
    match findCharFrom raw '\x7b' 0 with
    | none => none
    | some firstBrace =>
      let jsonStrOpt : Option (List Char) :=
        match rfindChar raw '\x7d' with
        | some lastBrace =>
          if firstBrace ≥ lastBrace then repairTruncatedJson (pyDropFrom raw firstBrace)
          else some (pySlice raw firstBrace (lastBrace + 1))
        | none => repairTruncatedJson (pyDropFrom raw firstBrace)
      match jsonStrOpt with
      | none => none
      | some js => jsonLoads (stripTrailingCommas (js.filter (fun c => !isCtrl7f c)))

/-! ### json_repair.py : markdown extraction and safe_json_parse -/

/-- A number lexeme denotes zero iff every digit before the exponent marker
is `0` (the exponent cannot make a zero mantissa non-zero). -/
def numIsZero (lex : List Char) : Bool :=
  (lex.takeWhile (fun c => c != 'e' && c != 'E')).all
    (fun c => !isDigitCh c || c == '0')

/-- Python truthiness of a decoded JSON value (`if result:`). -/
def jsonTruthy : Json → Bool
  | Json.null => false
  | Json.bool b => b
  | Json.num lex =>
    lex == "NaN".toList || lex == "Infinity".toList ||
      lex == "-Infinity".toList || !numIsZero lex
  | Json.str s => !s.isEmpty
  | Json.arr xs => !xs.isEmpty
  | Json.obj kvs => !kvs.isEmpty

def truthyOpt : Option Json → Bool
  | none => false
  | some v => jsonTruthy v

/-- Lazy part of the code-block regex: after the captured `{`, find the
shortest run such that a `}` follows, then `\s*`, then a closing fence. -/
def lazyClose (acc : List Char) : List Char → Option (List Char × List Char)
  | [] => none
  | c :: t =>
    if c == '\x7d' && ("```".toList).isPrefixOf (t.dropWhile pyIsSpace) then
      some ('\x7b' :: acc.reverse ++ ['\x7d'], (t.dropWhile pyIsSpace).drop 3)
    else lazyClose (c :: acc) t

/-- Try the regex ```` ```(?:json)?\s*(\{.*?\})\s*``` ```` at this exact
position; on a match return the capture and the input after the match. -/
def tryMatchBlockAt (s : List Char) : Option (List Char × List Char) :=
  if ("```".toList).isPrefixOf s then
    let s1 := s.drop 3
    let s2 := if ("json".toList).isPrefixOf s1 then s1.drop 4 else s1
    match s2.dropWhile pyIsSpace with
    | '\x7b' :: tail => lazyClose [] tail
    | _ => none
  else none

/-- Python `re.findall` of the code-block pattern: scan left to right, on a match
continue after it, otherwise advance one character. -/
def scanBlocks : Nat → List Char → List (List Char)
  | 0, _ => []
  | fuel + 1, s =>
    match tryMatchBlockAt s with
    | some (cap, rest) => cap :: scanBlocks fuel rest
    | none =>
      match s with
      | [] => []
      | _ :: t => scanBlocks fuel t

/-- First code-block capture that parses (`for match in matches: try:
return json.loads(match) except ...: continue`). -/
def firstParsed : List (List Char) → Option Json
  | [] => none
  | m :: rest =>
    match jsonLoads m with
    | some v => some v
    | none => firstParsed rest

/-- Model of `extract_json_from_markdown` from json_repair.py. -/
def extractJsonFromMarkdown (text : List Char) : Option Json :=
  if text.isEmpty then none
  else
    match firstParsed (scanBlocks (text.length + 1) text) with
    | some v => some v
    | none => tryRepairToJson text 300000

/-- Model of `safe_json_parse` from json_repair.py.  Note the two fallback results are
filtered through Python truthiness (`if result:`), the direct decode is not. -/
def safeJsonParse (raw : List Char) (maxBytes : Nat) : Option Json :=
  if raw.isEmpty then none
  else
    match jsonLoads raw with
    | some v => some v
    | none =>
      let r1 := extractJsonFromMarkdown raw
      if truthyOpt r1 then r1
      else
        let r2 := tryRepairToJson raw maxBytes
        if truthyOpt r2 then r2 else none

/-! ### adaptive_llama.py : keyword-scoring category classifier -/

/-- Substring containment, Python `keyword in product_text`. -/
def containsSub (text pat : List Char) : Bool :=
  match text with
  | [] => pat.isEmpty
  | _ :: t => pat.isPrefixOf text || containsSub t pat

def fragranceKeywords : List String :=
  ["perfume", "eau de parfum", "eau de toilette", "cologne", "fragrance", "scent"]

def makeupKeywords : List String :=
  ["foundation", "lipstick", "mascara", "eyeshadow", "blush", "concealer", "powder",
   "makeup", "cosmetic"]

def skincareKeywords : List String :=
  ["serum", "moisturizer", "cleanser", "cream", "lotion", "essence", "toner",
   "treatment", "skincare"]

def toolsKeywords : List String :=
  ["brush", "sponge", "curler", "applicator", "tool", "device", "blender"]

/-- The `category_indicators` dict of `detect_product_category`, in dict insertion
order. -/
def categoryIndicators : List (String × List String) :=
  [("Fragrance", fragranceKeywords), ("Makeup", makeupKeywords),
   ("Skincare", skincareKeywords), ("Tools", toolsKeywords)]

/-- Python `sum(1 for keyword in keywords if keyword in product_text)`. -/
def scoreCategory (text : List Char) (kws : List String) : Nat :=
  (kws.filter (fun k => containsSub text k.toList)).length

/-- Python `max(scores, key=scores.get)` over a dict in insertion order:
keeps the first key whose value is maximal (a later key replaces only on a
strictly greater value). -/
def pyMaxByVal : List (String × Nat) → String
  | [] => ""
  | (k, v) :: t => (t.foldl (fun acc p => if p.2 > acc.2 then p else acc) (k, v)).1

/-- Python `f"{product_name} {brand} {description}".lower()` (ASCII model of
`str.lower`). -/
def productText (product_name brand description : String) : List Char :=
  (product_name ++ " " ++ brand ++ " " ++ description).toList.map Char.toLower

/-- Model of `detect_product_category` from adaptive_llama.py. -/
def detectProductCategory (product_name brand description : String) : String :=
  let text := productText product_name brand description
  let scores := categoryIndicators.map (fun p => (p.1, scoreCategory text p.2))
  if (scores.map Prod.snd).foldl Nat.max 0 > 0 then pyMaxByVal scores else "Makeup"

/-- The first category of the insertion order attaining the maximal score
(how `max(scores, key=scores.get)` breaks ties). -/
def firstMaxCategory (sF sM sS sT : Nat) : String :=
  if max (max sF sM) sS < sT then "Tools"
  else if max sF sM < sS then "Skincare"
  else if sF < sM then "Makeup"
  else "Fragrance"

/-! ### models.py : SummarizedReview validation -/

structure AspectScoresIn where
  longevity : Option Rat
  texture : Option Rat
  irritation : Option Rat
  value : Option Rat
deriving DecidableEq

def optRange01 : Option Rat → Bool
  | none => true
  | some x => decide (0 ≤ x ∧ x ≤ 1)

/-- Field constraints of `AspectScores` (each score in [0,1] when present). -/
def aspectScoresValid (a : AspectScoresIn) : Bool :=
  optRange01 a.longevity && optRange01 a.texture &&
    optRange01 a.irritation && optRange01 a.value

structure PlatformInsightsIn where
  retail_consensus : Option String
  influencer_consensus : Option String
  expert_consensus : Option String
deriving DecidableEq

def optMaxLen (n : Nat) : Option String → Bool
  | none => true
  | some s => decide (s.length ≤ n)

def platformInsightsValid (p : PlatformInsightsIn) : Bool :=
  optMaxLen 150 p.retail_consensus && optMaxLen 150 p.influencer_consensus &&
    optMaxLen 150 p.expert_consensus

structure SummarizedReviewIn where
  master_summary : Option String
  platform_insights : Option PlatformInsightsIn
  pros : List String
  cons : List String
  aspect_scores : Option AspectScoresIn
  verdict : String
deriving DecidableEq

/-- Validation performed by `SummarizedReview` in models.py:
`pros`/`cons` carry `min_items=3, max_items=3` plus explicit validators
raising unless the length is exactly 3; `verdict` has `min_length=1`;
`master_summary` has `max_length=300`; nested models validate their own
bounds. -/
def summarizedReviewValid (r : SummarizedReviewIn) : Bool :=
  optMaxLen 300 r.master_summary &&
  (match r.platform_insights with
   | none => true
   | some p => platformInsightsValid p) &&
  r.pros.length == 3 && r.cons.length == 3 &&
  (match r.aspect_scores with
   | none => true
   | some a => aspectScoresValid a) &&
  decide (1 ≤ r.verdict.length)

/-! ### parallel_llama.py : fan-out orchestrator -/

/-- A parsed Python dict (chunk results are decoded JSON objects). -/
abbrev PyDict := List (List Char × Json)

def dGet (d : PyDict) (k : List Char) : Option Json :=
  (d.find? (fun kv => kv.1 == k)).map Prod.snd

/-- Python `d.get(k, default)`. -/
def dGetD (d : PyDict) (k : List Char) (dflt : Json) : Json :=
  (dGet d k).getD dflt

/-- Python `d.update(e)`: right-biased union. -/
def dUpdate (d e : PyDict) : PyDict :=
  d.map (fun kv =>
    match dGet e kv.1 with
    | some v => (kv.1, v)
    | none => kv) ++
  e.filter (fun kv => (dGet d kv.1).isNone)

/-- The final merged structure built by `_merge_parallel_results`. -/
structure FinalData where
  product_identity : Json
  platforms : PyDict
  specifications : Json
  summarized_review : Json
  citations : Json

/-- Python `chunk_data.get("platforms", {})`, for a well-shaped chunk whose
`platforms` value (when present) is an object. -/
def chunkPlatforms (chunk : PyDict) : PyDict :=
  match dGet chunk ("platforms".toList) with
  | some (Json.obj m) => m
  | _ => []

/-- A fetcher chunk where `platforms`, if present and truthy, is an object
(anything else would make `dict.update` raise in the source). -/
def wellShapedChunk (chunk : PyDict) : Bool :=
  match dGet chunk ("platforms".toList) with
  | none => true
  | some (Json.obj _) => true
  | some _ => false

/-- The `_fetch_*_wrapper` methods: any exception from the underlying chunk
fetcher is caught and degraded to the empty dict (the `future.result`
collection loop applies the same degradation a second time). -/
def wrapFetch (r : Except String PyDict) : PyDict :=
  match r with
  | .ok d => d
  | .error _ => []

/-- Model of `_merge_parallel_results`: platforms start empty and are updated from
retail, then editorial, then influencer, each only when truthy. -/
def mergeParallelResults (retail editorial influencer summaryData : PyDict) :
    FinalData :=
  let p0 : PyDict := []
  let rp := chunkPlatforms retail
  let p1 := if !rp.isEmpty then dUpdate p0 rp else p0
  let ep := chunkPlatforms editorial
  let p2 := if !ep.isEmpty then dUpdate p1 ep else p1
  let ip := chunkPlatforms influencer
  let p3 := if !ip.isEmpty then dUpdate p2 ip else p2
  ⟨dGetD summaryData ("product_identity".toList) (Json.obj []), p3,
   dGetD summaryData ("specifications".toList) (Json.obj []),
   dGetD summaryData ("summarized_review".toList) (Json.obj []),
   dGetD summaryData ("citations".toList) (Json.obj [])⟩

/-- Model of `fetch_product_snapshot_parallel`: the three independent segment outcomes
are parameters (the thread pool only affects completion order, and the merge
reads them in the fixed order retail/editorial/influencer); the synthesis
call is a parameter consuming the three wrapped chunk results.  A synthesis
failure escapes the method (`except ...: raise`); segment failures do not. -/
def fetchProductSnapshotParallel (retail editorial influencer : Except String PyDict)
    (summarize : PyDict → PyDict → PyDict → Except String PyDict) :
    Except String FinalData :=
  let cr := wrapFetch retail
  let ce := wrapFetch editorial
  let ci := wrapFetch influencer
  match summarize cr ce ci with
  | .error e => .error e
  | .ok s => .ok (mergeParallelResults cr ce ci s)

/-! ### db.py : data model of the stored snapshot -/

structure PyPrice where
  amount : Option Rat
  currency : Option String
  unit_price : Option String
  availability : Option String
  promo : Option String
deriving DecidableEq

structure PyRating where
  average : Option Rat
  count : Option Int
  breakdown : Option (List (String × Rat))
deriving DecidableEq

structure PyReview where
  author : Option String
  rating : Option Rat
  title : Option String
  body : Option String
  date : Option String
  url : Option String
deriving DecidableEq

structure PyPlatformData where
  url : Option String
  price : Option PyPrice
  rating : Option PyRating
  reviews : Option (List PyReview)
  summary : Option String
deriving DecidableEq

structure PyEditorialQuote where
  outlet : String
  quote : String
  url : String
deriving DecidableEq

structure PyEditorialBlock where
  quotes : List PyEditorialQuote
deriving DecidableEq

/-- One value of the `platforms` union in `RootSnapshot`.  `other` stands for
`YoutubeBlock`, `InstagramBlock` or a plain dict — `store_snapshot` skips all
of these (its `isinstance` checks only accept `PlatformData`, and
`EditorialBlock` under the key `editorial`). -/
inductive PlatformEntry where
  | pdata (d : PyPlatformData)
  | eblock (b : PyEditorialBlock)
  | other
deriving DecidableEq

structure SpecificationsIn where
  size : Option String
  form : Option String
  finish_texture : Option String
  spf_pa : Option String
  skin_types : Option (List String)
  usage : Option String
  ingredients_inci : Option (List String)
  certifications : Option (List String)
  awards : Option (List String)
deriving DecidableEq

structure RootSnapshotIn where
  platforms : List (String × PlatformEntry)
  specifications : SpecificationsIn
  summarized_review : SummarizedReviewIn
  citations : List (String × String)
deriving DecidableEq

/-! ### db.py : helper functions -/

/-- Model of `ensure_currency_usd` from db.py. -/
def ensureCurrencyUsd : Option String → Option String
  | none => none
  | some c =>
    if c.isEmpty then none
    else
      let u := String.mk (c.toList.map Char.toUpper)
      if u == "USD" || u == "US$" || u == "$" || u == "DOLLAR" || u == "DOLLARS" then
        some "USD"
      else if u == "EUR" || u == "GBP" || u == "CAD" || u == "AUD" || u == "JPY" || u == "CNY" then
        some u
      else some "USD"

/-- Model of `clamp_float` from db.py: `max(lo, min(hi, x))`, `None` passed through. -/
def clampFloat : Option Rat → Rat → Rat → Option Rat
  | none, _, _ => none
  | some x, lo, hi => some (max lo (min hi x))

/-- Characters removed by `clean_text`
(regex `[\x00-\x08\x0B\x0C\x0E-\x1F\x7F]`; tab, newline and CR survive). -/
def isCleanCtrl (c : Char) : Bool :=
  c.toNat ≤ 0x08 || c.toNat == 0x0B || c.toNat == 0x0C ||
    decide (0x0E ≤ c.toNat ∧ c.toNat ≤ 0x1F) || c.toNat == 0x7F

def pyStripList (l : List Char) : List Char :=
  ((l.dropWhile pyIsSpace).reverse.dropWhile pyIsSpace).reverse

/-- Model of `clean_text` on a required string argument. -/
def cleanTextS (s : String) : String :=
  if s.isEmpty then s
  else String.mk (pyStripList (s.toList.filter (fun c => !isCleanCtrl c)))

/-- Model of `clean_text` from db.py (`if not s: return s`, then strip control
characters and surrounding whitespace). -/
def cleanText : Option String → Option String
  | none => none
  | some s => some (cleanTextS s)

/-- Python truthiness of an optional float (`if review.rating`): false for
`None` and for `0.0`. -/
def pyTruthyOptRat : Option Rat → Bool
  | none => false
  | some x => x != 0

/-! ### db.py : storage rows, states and statements -/

structure OfferRow where
  product_id : String
  retailer : String
  price_amount : Option Rat
  price_currency : Option String
  unit_price : Option String
  availability : Option String
  promo : Option String
  url : Option String
deriving DecidableEq

structure PriceHistoryRow where
  product_id : String
  retailer : String
  price_amount : Rat
  price_currency : Option String
  url : Option String
  day : Nat
deriving DecidableEq

structure RatingRow where
  product_id : String
  retailer : String
  average : Option Rat
  count : Option Int
  breakdown : Option (List (String × Rat))
  url : Option String
deriving DecidableEq

structure ReviewRow where
  product_id : String
  retailer : String
  author : Option String
  rating : Option Rat
  title : Option String
  body : Option String
  posted_at : Option String
  url : Option String
deriving DecidableEq

/-- A `specs.value` text: `str(value)` for plain strings (then cleaned),
`json.dumps(value)` for lists, and for editorial quotes the serialized
`{outlet, quote, url}` record — modelled structurally, since serialization
is injective on this data. -/
inductive SpecVal where
  | s (v : String)
  | l (v : List String)
  | eq (outlet quote qurl : String)
deriving DecidableEq

structure SpecRow where
  product_id : String
  key : String
  value : SpecVal
  source : String
  url : Option String
deriving DecidableEq

structure SummaryRow where
  product_id : String
  pros : Option (List String)
  cons : Option (List String)
  verdict : Option String
  aspect_scores : Option AspectScoresIn
  citations : String
  model_name : String
  prompt_hash : String
deriving DecidableEq

structure DBState where
  offers : List OfferRow
  price_history : List PriceHistoryRow
  ratings : List RatingRow
  reviews : List ReviewRow
  specs : List SpecRow
  summaries : List SummaryRow
deriving DecidableEq

/-- SQL statements issued inside the `store_snapshot` transaction.  The
`withUrl` flag on spec upserts records whether the `ON CONFLICT` clause
updates the `url` column (it does for editorial quotes, not for
`store_specifications`). -/
inductive Stmt where
  | upsertOffer (r : OfferRow)
  | insertPriceHistory (r : PriceHistoryRow)
  | upsertRating (r : RatingRow)
  | deleteReviews (product_id retailer : String)
  | insertReviews (rows : List ReviewRow)
  | upsertSpec (r : SpecRow) (withUrl : Bool)
  | upsertSummary (r : SummaryRow)
deriving DecidableEq

/-- Relational semantics of one statement (scraped-at timestamps are not
modelled; `ON CONFLICT DO UPDATE` rewrites every updated column). -/
def execStmt : Stmt → DBState → DBState
  | .upsertOffer r, db =>
    { db with offers :=
        if db.offers.any (fun o => o.product_id == r.product_id && o.retailer == r.retailer) then
          db.offers.map (fun o =>
            if o.product_id == r.product_id && o.retailer == r.retailer then r else o)
        else db.offers ++ [r] }
  | .insertPriceHistory r, db =>
    { db with price_history :=
        if db.price_history.any (fun p =>
            p.product_id == r.product_id && p.retailer == r.retailer && p.day == r.day) then
          db.price_history
        else db.price_history ++ [r] }
  | .upsertRating r, db =>
    { db with ratings :=
        if db.ratings.any (fun o => o.product_id == r.product_id && o.retailer == r.retailer) then
          db.ratings.map (fun o =>
            if o.product_id == r.product_id && o.retailer == r.retailer then r else o)
        else db.ratings ++ [r] }
  | .deleteReviews pid ret, db =>
    { db with reviews :=
        db.reviews.filter (fun r => !(r.product_id == pid && r.retailer == ret)) }
  | .insertReviews rows, db => { db with reviews := db.reviews ++ rows }
  | .upsertSpec r withUrl, db =>
    { db with specs :=
        if db.specs.any (fun o =>
            o.product_id == r.product_id && o.key == r.key && o.source == r.source) then
          db.specs.map (fun o =>
            if o.product_id == r.product_id && o.key == r.key && o.source == r.source then
              { o with value := r.value, url := if withUrl then r.url else o.url }
            else o)
        else db.specs ++ [r] }
  | .upsertSummary r, db =>
    { db with summaries :=
        if db.summaries.any (fun o => o.product_id == r.product_id) then
          db.summaries.map (fun o => if o.product_id == r.product_id then r else o)
        else db.summaries ++ [r] }

/-! ### db.py : statement generation, mirroring the store functions -/

/-- The review row built by `store_platform_data` (its rating is dropped for
a Python-falsy value, i.e. for `None` and for `0`). -/
def mkReviewRow (pid platform : String) (r : PyReview) : ReviewRow :=
  ⟨pid, platform, cleanText r.author,
   (if pyTruthyOptRat r.rating then clampFloat r.rating 0 5 else none),
   cleanText r.title, cleanText r.body, r.date, r.url⟩

def offerStmts (pid platform : String) (today : Nat) (d : PyPlatformData) : List Stmt :=
  match d.price with
  | none => []
  | some price =>
    [Stmt.upsertOffer ⟨pid, platform, price.amount, ensureCurrencyUsd price.currency,
        price.unit_price, cleanText price.availability, cleanText price.promo, d.url⟩] ++
    (match price.amount with
     | some amt =>
       [Stmt.insertPriceHistory ⟨pid, platform, amt, ensureCurrencyUsd price.currency, d.url, today⟩]
     | none => [])

def ratingStmts (pid platform : String) (d : PyPlatformData) : List Stmt :=
  match d.rating with
  | none => []
  | some rating =>
    let breakdownField : Option (List (String × Rat)) :=
      match rating.breakdown with
      | some b => if b.isEmpty then none else some b
      | none => none
    [Stmt.upsertRating ⟨pid, platform, clampFloat rating.average 0 5,
        rating.count, breakdownField, d.url⟩]

def reviewStmts (pid platform : String) (d : PyPlatformData) : List Stmt :=
  match d.reviews with
  | none => []
  | some revs =>
    if revs.isEmpty then []
    else
      [Stmt.deleteReviews pid platform,
       Stmt.insertReviews ((revs.take 5).map (mkReviewRow pid platform))]

/-- Model of `store_platform_data`: offers (and a price-history point), ratings, then
replace-all reviews. -/
def platformDataStmts (pid : String) (today : Nat) (platform : String)
    (d : PyPlatformData) : List Stmt :=
  offerStmts pid platform today d ++ ratingStmts pid platform d ++ reviewStmts pid platform d

/-- Model of `store_editorial_data`: each quote becomes a namespaced spec upsert. -/
def editorialStmts (pid : String) (b : PyEditorialBlock) : List Stmt :=
  b.quotes.map (fun q =>
    Stmt.upsertSpec
      ⟨pid,
       "editorial_quote_" ++
         String.mk (q.outlet.toList.map (fun c =>
           if c.toLower == ' ' then '_' else c.toLower)),
       SpecVal.eq q.outlet (cleanTextS q.quote) q.url, "editorial", some q.url⟩
      true)

/-- Model of `store_specifications`: the nine keys in dict order; `best_source` is
always `aggregated` because `Specifications` has no `<source>_source`
attribute, so every `hasattr` probe fails.  Cleaning the serialized list
values is the identity (json.dumps escapes control characters), so only
plain string values are cleaned. -/
def specificationsStmts (pid : String) (sp : SpecificationsIn) : List Stmt :=
  ([("size", sp.size.map (fun v => SpecVal.s (cleanTextS v))),
    ("form", sp.form.map (fun v => SpecVal.s (cleanTextS v))),
    ("finish_texture", sp.finish_texture.map (fun v => SpecVal.s (cleanTextS v))),
    ("spf_pa", sp.spf_pa.map (fun v => SpecVal.s (cleanTextS v))),
    ("skin_types", sp.skin_types.map SpecVal.l),
    ("usage", sp.usage.map (fun v => SpecVal.s (cleanTextS v))),
    ("ingredients_inci", sp.ingredients_inci.map SpecVal.l),
    ("certifications", sp.certifications.map SpecVal.l),
    ("awards", sp.awards.map SpecVal.l)] :
      List (String × Option SpecVal)).filterMap
    (fun kv =>
      match kv.2 with
      | some v => some (Stmt.upsertSpec ⟨pid, kv.1, v, "aggregated", none⟩ false)
      | none => none)

/-- The `summaries` row built by `store_summary`: empty pros/cons lists are
stored as NULL; the citations column always receives `json.dumps({})`, never
the snapshot's citations. -/
def summaryRowOf (pid : String) (sr : SummarizedReviewIn)
    (model_name prompt_hash : String) : SummaryRow :=
  ⟨pid,
   (if sr.pros.isEmpty then none else some sr.pros),
   (if sr.cons.isEmpty then none else some sr.cons),
   cleanText (some sr.verdict),
   sr.aspect_scores,
   "\x7b\x7d",
   model_name, prompt_hash⟩

/-- The `store_summary` call as a statement. -/
def summaryStmt (pid : String) (sr : SummarizedReviewIn)
    (model_name prompt_hash : String) : Stmt :=
  Stmt.upsertSummary (summaryRowOf pid sr model_name prompt_hash)

/-- Dispatch of `store_snapshot`'s platform loop: the `editorial` key only
stores `EditorialBlock` values, other keys only `PlatformData` values. -/
def platformEntryStmts (pid : String) (today : Nat) (nm : String)
    (e : PlatformEntry) : List Stmt :=
  if nm == "editorial" then
    match e with
    | .eblock b => editorialStmts pid b
    | _ => []
  else
    match e with
    | .pdata d => platformDataStmts pid today nm d
    | _ => []

/-- Every statement of one `store_snapshot` transaction, in program order. -/
def snapStmts (pid : String) (snap : RootSnapshotIn)
    (model_name prompt_hash : String) (today : Nat) : List Stmt :=
  (snap.platforms.map (fun p => platformEntryStmts pid today p.1 p.2)).flatten ++
  specificationsStmts pid snap.specifications ++
  [summaryStmt pid snap.summarized_review model_name prompt_hash]

/-- Run the transaction's statements; `failAt i` injects an exception at the
i-th statement (psycopg2 errors, the only failure source modelled). -/
def runStmts (failAt : Nat → Bool) : List Stmt → Nat → DBState → Option DBState
  | [], _, db => some db
  | s :: rest, i, db =>
    if failAt i then none else runStmts failAt rest (i + 1) (execStmt s db)

def applyStmts (l : List Stmt) (db : DBState) : DBState :=
  l.foldl (fun d s => execStmt s d) db

/-- Model of `store_snapshot` from db.py: all statements run in one transaction; any
exception rolls the transaction back (the pre-call state is kept) and the
function returns `false` instead of raising; on success it commits and
returns `true`. -/
def storeSnapshot (failAt : Nat → Bool) (pid : String) (snap : RootSnapshotIn)
    (model_name prompt_hash : String) (today : Nat) (db : DBState) : DBState × Bool :=
  match runStmts failAt (snapStmts pid snap model_name prompt_hash today) 0 db with
  | some db2 => (db2, true)
  | none => (db, false)

/-- The rows of the `reviews` table for one `(product_id, retailer)`. -/
def reviewsFor (pid retailer : String) (db : DBState) : List ReviewRow :=
  db.reviews.filter (fun r => r.product_id == pid && r.retailer == retailer)

/-- The `summaries` row for one product. -/
def summaryFor (pid : String) (db : DBState) : Option SummaryRow :=
  db.summaries.find? (fun r => r.product_id == pid)

/-- Whether a statement can change the `reviews` rows of one
`(product_id, retailer)` key. -/
def stmtTouches (pid ret : String) : Stmt → Bool
  | .deleteReviews p r => p == pid && r == ret
  | .insertReviews rows => rows.any (fun w => w.product_id == pid && w.retailer == ret)
  | _ => false

/-- Left-biased choice on decoded values (used to state merge lookups). -/
def oElse (a b : Option Json) : Option Json :=
  match a with
  | some v => some v
  | none => b

/-- Discriminates a failed segment fetch. -/
def isErr (r : Except String PyDict) : Bool :=
  match r with
  | .error _ => true
  | .ok _ => false

/-- Concrete snapshot fixture: one amazon platform entry carrying a single
review. -/
def cexSnapA : RootSnapshotIn :=
  ⟨[("amazon", PlatformEntry.pdata
      ⟨none, none, none, some [⟨some "al", some 4, none, some "good", none, none⟩], none⟩)],
   ⟨none, none, none, none, none, none, none, none, none⟩,
   ⟨none, none, [], [], none, "v"⟩,
   []⟩

/-- Concrete snapshot fixture: the same platform entry with no reviews. -/
def cexSnapB : RootSnapshotIn :=
  ⟨[("amazon", PlatformEntry.pdata ⟨none, none, none, none, none⟩)],
   ⟨none, none, none, none, none, none, none, none, none⟩,
   ⟨none, none, [], [], none, "v"⟩,
   []⟩

/-- Concrete snapshot fixture: the same platform entry carrying a different
single review. -/
def cexSnapC : RootSnapshotIn :=
  ⟨[("amazon", PlatformEntry.pdata
      ⟨none, none, none, some [⟨some "bee", some 5, none, some "nice", none, none⟩], none⟩)],
   ⟨none, none, none, none, none, none, none, none, none⟩,
   ⟨none, none, [], [], none, "v"⟩,
   []⟩

def emptyDB : DBState := ⟨[], [], [], [], [], []⟩

/-! ## Theorems settling the claims -/

/-- Claim C3: for every non-empty string input on which direct JSON decoding
succeeds, `safe_json_parse` returns exactly the value produced by the direct
decode, unchanged by any repair step. -/
theorem c3_safeJsonParse_equals_direct (raw : List Char) (maxBytes : Nat) (v : Json)
    (hne : raw ≠ []) (hdec : jsonLoads raw = some v) :
    safeJsonParse raw maxBytes = some v := by
  have hempty : raw.isEmpty = false := by
    cases raw with
    | nil => exact absurd rfl hne
    | cons c t => rfl
  unfold safeJsonParse
  rw [hempty, hdec]
  simp

/-- Witness for C3 at the concrete input `{}`. -/
theorem c3_witness : safeJsonParse ("\x7b\x7d".toList) 300000 = some (Json.obj []) :=
  c3_safeJsonParse_equals_direct ("\x7b\x7d".toList) 300000 (Json.obj []) (by decide) rfl

/-- Claim C7 counterexample: on `x{}` the repair step recovers the empty
object, yet `safe_json_parse` yields `None` because its fallback results are
filtered through Python truthiness — so `safe_json_parse` does not yield
`None` exactly when no recoverable structure exists. -/
theorem c7_counterexample :
    tryRepairToJson ("x\x7b\x7d".toList) 300000 = some (Json.obj []) ∧
    safeJsonParse ("x\x7b\x7d".toList) 300000 = none :=
  ⟨rfl, rfl⟩

/-- Claim C7 (amended): the parser functions are total (they are plain
functions into `Option`), and `safe_json_parse` yields `None` exactly when
the input is empty, or direct decoding fails and each fallback produces
nothing or a Python-falsy value (such as the empty object). -/
theorem c7_safeJsonParse_none_iff (raw : List Char) (maxBytes : Nat) :
    safeJsonParse raw maxBytes = none ↔
      (raw = [] ∨
        (jsonLoads raw = none ∧
         truthyOpt (extractJsonFromMarkdown raw) = false ∧
         truthyOpt (tryRepairToJson raw maxBytes) = false)) := by
  cases raw with
  | nil => simp [safeJsonParse]
  | cons c t =>
    cases hJ : jsonLoads (c :: t) with
    | some v => simp [safeJsonParse, hJ]
    | none =>
      cases h1 : truthyOpt (extractJsonFromMarkdown (c :: t)) with
      | true =>
        have hne2 : extractJsonFromMarkdown (c :: t) ≠ none := by
          intro hc
          rw [hc] at h1
          simp [truthyOpt] at h1
        simp [safeJsonParse, hJ, h1, hne2]
      | false =>
        cases h2 : truthyOpt (tryRepairToJson (c :: t) maxBytes) with
        | true =>
          have hne2 : tryRepairToJson (c :: t) maxBytes ≠ none := by
            intro hc
            rw [hc] at h2
            simp [truthyOpt] at h2
          simp [safeJsonParse, hJ, h1, h2, hne2]
        | false => simp [safeJsonParse, hJ, h1, h2]

/-- Claim C2 counterexample: `{"summary": "ok"` has an opening brace, a
complete `"summary": "..."` field and no closing brace, yet the truncation
salvage yields `None` (the second quote search past the summary value finds
nothing), so no structured record with the required keys is produced. -/
theorem c2_counterexample :
    ("\x7b\"summary\": \"ok\"".toList).contains '\x7b' = true ∧
    ("\x7b\"summary\": \"ok\"".toList).contains '\x7d' = false ∧
    containsSub ("\x7b\"summary\": \"ok\"".toList) ("\"summary\": \"ok\"".toList) = true ∧
    tryRepairToJson ("\x7b\"summary\": \"ok\"".toList) 300000 = none :=
  ⟨by decide, by decide, by decide, rfl⟩

/-- Claim C2 (amended): the salvage succeeds on truncated outputs where a
further quote follows the last summary value and the truncation point sits
at object depth three — e.g. the platforms shape with two spaces after the
colon — and then returns a syntactically valid object carrying the required
top-level keys: the salvaged `platforms`, an empty `specifications`, a
placeholder `summarized_review` with empty pros/cons and the sentinel
verdict, and empty `citations`. -/
theorem c2_amended_salvage_example :
    ("\x7b\"platforms\": \x7b\"amazon\": \x7b\"summary\":  \"good\"".toList).contains '\x7d'
        = false ∧
    tryRepairToJson ("\x7b\"platforms\": \x7b\"amazon\": \x7b\"summary\":  \"good\"".toList)
        300000 =
      some (Json.obj
        [("platforms".toList, Json.obj
            [("amazon".toList, Json.obj [("summary".toList, Json.str ("good".toList))])]),
         ("specifications".toList, Json.obj []),
         ("summarized_review".toList, Json.obj
            [("pros".toList, Json.arr []), ("cons".toList, Json.arr []),
             ("verdict".toList, Json.str ("Partial data - processing incomplete".toList))]),
         ("citations".toList, Json.obj [])]) :=
  ⟨by decide, rfl⟩

/-- Claim C6 counterexample: a candidate with one pro (within the claimed
1..7 range) and three cons, otherwise valid, is rejected by the
`SummarizedReview` validation, which demands exactly three of each. -/
theorem c6_counterexample :
    summarizedReviewValid ⟨none, none, ["a"], ["a", "b", "c"], none, "v"⟩ = false ∧
    1 ≤ (["a"] : List String).length ∧ (["a"] : List String).length ≤ 7 ∧
    (["a", "b", "c"] : List String).length ≤ 7 :=
  ⟨by decide, by decide, by decide, by decide⟩

/-- Claim C6 (amended): `SummarizedReview` validation only accepts candidates
whose pros and cons lists have exactly three entries each (the flexible 1–7
range exists only in the adaptive prompt text, not in validation). -/
theorem c6_valid_requires_exactly_three (r : SummarizedReviewIn)
    (h : summarizedReviewValid r = true) :
    r.pros.length = 3 ∧ r.cons.length = 3 := by
  unfold summarizedReviewValid at h
  simp only [Bool.and_eq_true, beq_iff_eq, decide_eq_true_eq] at h
  exact ⟨h.1.1.1.2, h.1.1.2⟩

/-- Witness for C6's amended theorem at a concrete accepted candidate. -/
theorem c6_witness :
    (["a", "b", "c"] : List String).length = 3 ∧
    (["d", "e", "f"] : List String).length = 3 :=
  c6_valid_requires_exactly_three ⟨none, none, ["a", "b", "c"], ["d", "e", "f"], none, "v"⟩
    (by decide)

/-- Claim C8 counterexample: `"perfume serum"` scores 1 for Fragrance and 1
for Skincare — a two-way tie for the maximum — yet the classifier returns
`Fragrance`, not the fixed default `Makeup`. -/
theorem c8_counterexample :
    scoreCategory (productText "perfume serum" "" "") fragranceKeywords = 1 ∧
    scoreCategory (productText "perfume serum" "" "") makeupKeywords = 0 ∧
    scoreCategory (productText "perfume serum" "" "") skincareKeywords = 1 ∧
    scoreCategory (productText "perfume serum" "" "") toolsKeywords = 0 ∧
    detectProductCategory "perfume serum" "" "" = "Fragrance" := by
  decide

/-- Claim C8 (amended): the classifier scores the lowercase concatenated text
against each category's vocabulary; the fixed default `Makeup` is returned
only when every score is zero, and a tie for the maximal score is broken in
favour of the earliest category in the fixed order Fragrance, Makeup,
Skincare, Tools (Python's `max` keeps the first maximal key). -/
theorem c8_tie_breaks_to_first_category (pn b d : String) :
    detectProductCategory pn b d =
      (if ([scoreCategory (productText pn b d) fragranceKeywords,
            scoreCategory (productText pn b d) makeupKeywords,
            scoreCategory (productText pn b d) skincareKeywords,
            scoreCategory (productText pn b d) toolsKeywords].foldl Nat.max 0) > 0
       then firstMaxCategory (scoreCategory (productText pn b d) fragranceKeywords)
              (scoreCategory (productText pn b d) makeupKeywords)
              (scoreCategory (productText pn b d) skincareKeywords)
              (scoreCategory (productText pn b d) toolsKeywords)
       else "Makeup") := by
  simp only [detectProductCategory, categoryIndicators, pyMaxByVal, firstMaxCategory,
    List.map, List.foldl]
  split_ifs <;> first | rfl | (exfalso; omega)

lemma dGet_cons (k0 : List Char) (v0 : Json) (d : PyDict) (k : List Char) :
    dGet ((k0, v0) :: d) k = if k0 == k then some v0 else dGet d k := by
  cases h : k0 == k <;> simp [dGet, List.find?, h]

lemma dGet_mapUpd (d e : PyDict) (k : List Char) :
    dGet (d.map (fun kv =>
        match dGet e kv.1 with
        | some v => (kv.1, v)
        | none => kv)) k =
      (match dGet d k with
       | some v => some ((dGet e k).getD v)
       | none => none) := by
  induction d with
  | nil => simp [dGet]
  | cons kv0 d ih =>
    obtain ⟨k0, v0⟩ := kv0
    by_cases hk : (k0 == k) = true
    · have hkeq : k0 = k := eq_of_beq hk
      subst hkeq
      cases he : dGet e k0 <;>
        simp [List.map, he, dGet_cons, hk]
    · have hne : (k0 == k) = false := by
        cases hcase : k0 == k
        · rfl
        · exact absurd hcase hk
      cases he : dGet e k0 <;>
        simp [List.map, he, dGet_cons, hne, ih]

lemma dGet_filterNone (d e : PyDict) (k : List Char) :
    dGet (e.filter (fun kv => (dGet d kv.1).isNone)) k =
      (if (dGet d k).isNone then dGet e k else none) := by
  induction e with
  | nil => cases hd : (dGet d k).isNone <;> simp [dGet, hd]
  | cons kv0 e ih =>
    obtain ⟨k0, v0⟩ := kv0
    by_cases hk : (k0 == k) = true
    · have hkeq : k0 = k := eq_of_beq hk
      subst hkeq
      cases hd : (dGet d k0).isNone
      · simp [List.filter, hd, ih]
      · simp [List.filter, hd, dGet_cons, hk]
    · have hne : (k0 == k) = false := by
        cases hcase : k0 == k
        · rfl
        · exact absurd hcase hk
      cases hd : (dGet d k0).isNone <;>
        simp [List.filter, hd, dGet_cons, hne, ih]

lemma dGet_append (l1 l2 : PyDict) (k : List Char) :
    dGet (l1 ++ l2) k = oElse (dGet l1 k) (dGet l2 k) := by
  induction l1 with
  | nil => simp [dGet, oElse]
  | cons kv0 l1 ih =>
    obtain ⟨k0, v0⟩ := kv0
    cases hk : k0 == k
    · simpa [List.cons_append, dGet_cons, hk] using ih
    · simp [List.cons_append, dGet_cons, hk, oElse]

lemma dGet_dUpdate (d e : PyDict) (k : List Char) :
    dGet (dUpdate d e) k = oElse (dGet e k) (dGet d k) := by
  unfold dUpdate
  rw [dGet_append, dGet_mapUpd, dGet_filterNone]
  cases hd : dGet d k <;> cases he : dGet e k <;> simp [oElse, hd, he]

lemma dGet_guardedUpdate (p q : PyDict) (k : List Char) :
    dGet (if !q.isEmpty then dUpdate p q else p) k = oElse (dGet q k) (dGet p k) := by
  cases hq : q.isEmpty
  · simp only [hq, Bool.not_false, if_pos]
    exact dGet_dUpdate p q k
  · have hqe : q = [] := List.isEmpty_iff.mp hq
    subst hqe
    simp [dGet, oElse]

lemma mergeParallelResults_platforms_lookup (r e i s : PyDict) (k : List Char) :
    dGet (mergeParallelResults r e i s).platforms k =
      oElse (dGet (chunkPlatforms i) k)
        (oElse (dGet (chunkPlatforms e) k) (dGet (chunkPlatforms r) k)) := by
  unfold mergeParallelResults
  simp only
  rw [dGet_guardedUpdate, dGet_guardedUpdate, dGet_guardedUpdate]
  cases hI : dGet (chunkPlatforms i) k <;>
    cases hE : dGet (chunkPlatforms e) k <;>
      cases hR : dGet (chunkPlatforms r) k <;> simp [oElse, dGet]

/-- Claim C4: if exactly one of the three independent segment fetchers fails
and the synthesis stage succeeds, the parallel aggregation still returns a
non-null merged snapshot whose platform lookups are the right-biased union
of the successful segments (retail, then editorial, then influencer), with
the failed segment degraded to the empty record instead of an exception. -/
theorem c4_one_failed_segment_degrades (r e i : Except String PyDict)
    (summarize : PyDict → PyDict → PyDict → Except String PyDict) (s : PyDict)
    (hone : ((isErr r && !isErr e && !isErr i) ||
             (!isErr r && isErr e && !isErr i) ||
             (!isErr r && !isErr e && isErr i)) = true)
    (hsum : summarize (wrapFetch r) (wrapFetch e) (wrapFetch i) = Except.ok s)
    (hw1 : wellShapedChunk (wrapFetch r) = true)
    (hw2 : wellShapedChunk (wrapFetch e) = true)
    (hw3 : wellShapedChunk (wrapFetch i) = true) :
    ∃ fd : FinalData,
      fetchProductSnapshotParallel r e i summarize = Except.ok fd ∧
      (∀ k, dGet fd.platforms k =
        oElse (dGet (chunkPlatforms (wrapFetch i)) k)
          (oElse (dGet (chunkPlatforms (wrapFetch e)) k)
            (dGet (chunkPlatforms (wrapFetch r)) k))) ∧
      (isErr r = true → chunkPlatforms (wrapFetch r) = []) ∧
      (isErr e = true → chunkPlatforms (wrapFetch e) = []) ∧
      (isErr i = true → chunkPlatforms (wrapFetch i) = []) := by
  refine ⟨mergeParallelResults (wrapFetch r) (wrapFetch e) (wrapFetch i) s, ?_, ?_, ?_, ?_, ?_⟩
  · simp only [fetchProductSnapshotParallel]
    rw [hsum]
  · intro k
    exact mergeParallelResults_platforms_lookup (wrapFetch r) (wrapFetch e) (wrapFetch i) s k
  · intro hr
    cases r with
    | error m => simp [wrapFetch, chunkPlatforms, dGet]
    | ok dd => simp [isErr] at hr
  · intro he
    cases e with
    | error m => simp [wrapFetch, chunkPlatforms, dGet]
    | ok dd => simp [isErr] at he
  · intro hi
    cases i with
    | error m => simp [wrapFetch, chunkPlatforms, dGet]
    | ok dd => simp [isErr] at hi

/-- Witness for C4: retail raises a transport failure, editorial and
influencer succeed, synthesis succeeds. -/
theorem c4_witness :
    ∃ fd : FinalData,
      fetchProductSnapshotParallel (Except.error "TransportFailure")
          (Except.ok [("platforms".toList, Json.obj [("brand_site".toList, Json.obj [])])])
          (Except.ok [("platforms".toList, Json.obj [("youtube".toList, Json.obj [])])])
          (fun _ _ _ => Except.ok []) = Except.ok fd ∧
      (∀ k, dGet fd.platforms k =
        oElse (dGet (chunkPlatforms (wrapFetch (Except.ok
            [("platforms".toList, Json.obj [("youtube".toList, Json.obj [])])]))) k)
          (oElse (dGet (chunkPlatforms (wrapFetch (Except.ok
              [("platforms".toList, Json.obj [("brand_site".toList, Json.obj [])])]))) k)
            (dGet (chunkPlatforms (wrapFetch
              ((Except.error "TransportFailure") : Except String PyDict))) k))) ∧
      (isErr (Except.error "TransportFailure") = true →
        chunkPlatforms (wrapFetch ((Except.error "TransportFailure") : Except String PyDict)) = []) ∧
      (isErr (Except.ok [("platforms".toList, Json.obj [("brand_site".toList, Json.obj [])])]) = true →
        chunkPlatforms (wrapFetch (Except.ok
          [("platforms".toList, Json.obj [("brand_site".toList, Json.obj [])])])) = []) ∧
      (isErr (Except.ok [("platforms".toList, Json.obj [("youtube".toList, Json.obj [])])]) = true →
        chunkPlatforms (wrapFetch (Except.ok
          [("platforms".toList, Json.obj [("youtube".toList, Json.obj [])])])) = []) :=
  c4_one_failed_segment_degrades (Except.error "TransportFailure")
    (Except.ok [("platforms".toList, Json.obj [("brand_site".toList, Json.obj [])])])
    (Except.ok [("platforms".toList, Json.obj [("youtube".toList, Json.obj [])])])
    (fun _ _ _ => Except.ok []) [] rfl rfl rfl rfl rfl

/-- Claim C10: `store_platform_data` persists a review rating of exactly 0 as
NULL (Python truthiness treats 0 as missing), and persists any positive
rating clamped to the interval [0, 5]. -/
theorem c10_zero_rating_stored_null (pid platform : String) (r : PyReview) :
    (r.rating = some 0 → (mkReviewRow pid platform r).rating = none) ∧
    (∀ x : Rat, r.rating = some x → 0 < x →
      (mkReviewRow pid platform r).rating = some (max 0 (min 5 x)) ∧
      0 ≤ max 0 (min 5 x) ∧ max 0 (min 5 x) ≤ 5) := by
  constructor
  · intro h0
    simp [mkReviewRow, pyTruthyOptRat, h0]
  · intro x hx hpos
    have hne : (x != 0) = true := by
      simp only [bne_iff_ne, ne_eq]
      exact fun hc => absurd (hc ▸ hpos) (lt_irrefl 0)
    refine ⟨?_, le_max_left 0 _, max_le (by norm_num) (min_le_left 5 x)⟩
    simp [mkReviewRow, pyTruthyOptRat, hx, hne, clampFloat]

/-- Witness for C10 at rating 0 (stored as NULL) and rating 6 (clamped). -/
theorem c10_witness :
    (mkReviewRow "p" "amazon" ⟨none, some 0, none, none, none, none⟩).rating = none ∧
    (mkReviewRow "p" "amazon" ⟨none, some 6, none, none, none, none⟩).rating = some 5 := by
  constructor
  · exact (c10_zero_rating_stored_null "p" "amazon"
      ⟨none, some 0, none, none, none, none⟩).1 rfl
  · have h := (c10_zero_rating_stored_null "p" "amazon"
      ⟨none, some 6, none, none, none, none⟩).2 6 rfl (by norm_num)
    rw [h.1]
    norm_num

lemma applyStmts_nil (db : DBState) : applyStmts [] db = db := rfl

lemma applyStmts_cons (s : Stmt) (L : List Stmt) (db : DBState) :
    applyStmts (s :: L) db = applyStmts L (execStmt s db) := rfl

lemma applyStmts_append (L1 L2 : List Stmt) (db : DBState) :
    applyStmts (L1 ++ L2) db = applyStmts L2 (applyStmts L1 db) :=
  List.foldl_append _ _ _ _

lemma runStmts_ok (failAt : Nat → Bool) (l : List Stmt) :
    ∀ (base : Nat) (db : DBState), (∀ j, j < l.length → failAt (base + j) = false) →
      runStmts failAt l base db = some (applyStmts l db) := by
  induction l with
  | nil => intro base db _; rfl
  | cons s rest ih =>
    intro base db h
    have h0 : failAt base = false := by simpa using h 0 (by simp)
    rw [runStmts, if_neg (by simp [h0])]
    rw [applyStmts_cons]
    exact ih (base + 1) (execStmt s db) (fun j hj => by
      have h2 := h (j + 1) (by simpa using Nat.succ_lt_succ hj)
      rwa [show base + (j + 1) = base + 1 + j by omega] at h2)

lemma runStmts_fail (failAt : Nat → Bool) (l : List Stmt) :
    ∀ (base : Nat) (db : DBState), (∃ j, j < l.length ∧ failAt (base + j) = true) →
      runStmts failAt l base db = none := by
  induction l with
  | nil =>
    intro base db h
    obtain ⟨j, hj, _⟩ := h
    simp at hj
  | cons s rest ih =>
    intro base db h
    cases hfb : failAt base
    · rw [runStmts, if_neg (by simp [hfb])]
      obtain ⟨j, hj, hf⟩ := h
      cases j with
      | zero =>
        rw [Nat.add_zero] at hf
        rw [hf] at hfb
        cases hfb
      | succ j2 =>
        exact ih (base + 1) (execStmt s db)
          ⟨j2, by simp at hj; omega, by rwa [show base + 1 + j2 = base + (j2 + 1) by omega]⟩
    · rw [runStmts, if_pos (by simp [hfb])]

lemma runStmts_some_eq (failAt : Nat → Bool) (l : List Stmt) :
    ∀ (base : Nat) (db db2 : DBState), runStmts failAt l base db = some db2 →
      db2 = applyStmts l db := by
  induction l with
  | nil =>
    intro base db db2 h
    rw [runStmts] at h
    cases h
    rfl
  | cons s rest ih =>
    intro base db db2 h
    cases hfb : failAt base
    · rw [runStmts, if_neg (by simp [hfb])] at h
      rw [applyStmts_cons]
      exact ih (base + 1) (execStmt s db) db2 h
    · rw [runStmts, if_pos (by simp [hfb])] at h
      cases h

/-- Claim C5: a statement failure anywhere inside the `store_snapshot`
transaction rolls back every write of the call (the pre-call state is kept)
and the function returns false instead of raising; with no failure it
commits all writes and returns true. -/
theorem c5_store_snapshot_transactional (failAt : Nat → Bool) (pid : String)
    (snap : RootSnapshotIn) (mn ph : String) (today : Nat) (db : DBState) :
    ((∃ i, i < (snapStmts pid snap mn ph today).length ∧ failAt i = true) →
      storeSnapshot failAt pid snap mn ph today db = (db, false)) ∧
    ((∀ i, i < (snapStmts pid snap mn ph today).length → failAt i = false) →
      storeSnapshot failAt pid snap mn ph today db =
        (applyStmts (snapStmts pid snap mn ph today) db, true)) := by
  constructor
  · rintro ⟨i, hi, hf⟩
    unfold storeSnapshot
    rw [runStmts_fail failAt _ 0 db ⟨i, hi, by simpa using hf⟩]
  · intro hall
    unfold storeSnapshot
    rw [runStmts_ok failAt _ 0 db (fun j hj => by simpa using hall j hj)]

/-- Witness for C5: the fixture transaction under an always-failing and a
never-failing statement oracle. -/
theorem c5_witness :
    storeSnapshot (fun _ => true) "p1" cexSnapA "m" "h" 0 emptyDB = (emptyDB, false) ∧
    storeSnapshot (fun _ => false) "p1" cexSnapA "m" "h" 0 emptyDB =
      (applyStmts (snapStmts "p1" cexSnapA "m" "h" 0) emptyDB, true) := by
  constructor
  · exact (c5_store_snapshot_transactional (fun _ => true) "p1" cexSnapA "m" "h" 0
      emptyDB).1 ⟨0, by decide, rfl⟩
  · exact (c5_store_snapshot_transactional (fun _ => false) "p1" cexSnapA "m" "h" 0
      emptyDB).2 (fun i _ => rfl)

lemma find?_map_upsert (r : SummaryRow) (l : List SummaryRow)
    (hany : l.any (fun o => o.product_id == r.product_id) = true) :
    (l.map (fun o => if o.product_id == r.product_id then r else o)).find?
      (fun o => o.product_id == r.product_id) = some r := by
  induction l with
  | nil => simp at hany
  | cons o l ih =>
    cases ho : (o.product_id == r.product_id)
    · rw [List.map_cons, if_neg (by simp [ho])]
      rw [List.find?_cons_of_neg _ (by simp [ho])]
      exact ih (by simpa [ho] using hany)
    · rw [List.map_cons, if_pos ho]
      exact List.find?_cons_of_pos _ (beq_self_eq_true r.product_id)

lemma summaryFor_upsert (r : SummaryRow) (db : DBState) :
    summaryFor r.product_id (execStmt (Stmt.upsertSummary r) db) = some r := by
  simp only [summaryFor, execStmt]
  cases hany : db.summaries.any (fun o => o.product_id == r.product_id)
  · rw [if_neg (by simp)]
    rw [List.find?_append]
    have h1 : db.summaries.find? (fun o => o.product_id == r.product_id) = none := by
      rw [List.find?_eq_none]
      intro a ha hpa
      have h2 : db.summaries.any (fun o => o.product_id == r.product_id) = true :=
        List.any_eq_true.mpr ⟨a, ha, hpa⟩
      rw [hany] at h2
      cases h2
    rw [h1]
    have hfind : List.find? (fun o => o.product_id == r.product_id) [r] = some r := by
      simp [List.find?]
    rw [hfind]
    rfl
  · rw [if_pos rfl]
    exact find?_map_upsert r db.summaries hany

/-- Claim C9: whatever the snapshot contains, a successful `store_snapshot`
leaves for the product a `summaries` row whose citations column is the empty
JSON object — the snapshot's citations map is never persisted. -/
theorem c9_summary_citations_always_empty (failAt : Nat → Bool) (pid : String)
    (snap : RootSnapshotIn) (mn ph : String) (today : Nat) (db : DBState)
    (hok : (storeSnapshot failAt pid snap mn ph today db).2 = true) :
    summaryFor pid (storeSnapshot failAt pid snap mn ph today db).1 =
      some (summaryRowOf pid snap.summarized_review mn ph) ∧
    (summaryRowOf pid snap.summarized_review mn ph).citations = "\x7b\x7d" := by
  refine ⟨?_, rfl⟩
  unfold storeSnapshot at hok ⊢
  cases hrun : runStmts failAt (snapStmts pid snap mn ph today) 0 db with
  | none =>
    rw [hrun] at hok
    simp at hok
  | some db2 =>
    show summaryFor pid db2 = some (summaryRowOf pid snap.summarized_review mn ph)
    have hdb2 := runStmts_some_eq failAt _ 0 db db2 hrun
    rw [hdb2]
    unfold snapStmts
    rw [applyStmts_append, applyStmts_append, applyStmts_cons, applyStmts_nil]
    exact summaryFor_upsert (summaryRowOf pid snap.summarized_review mn ph) _

/-- Witness for C9 on the fixture snapshot. -/
theorem c9_witness :
    summaryFor "p1" (storeSnapshot (fun _ => false) "p1" cexSnapA "m" "h" 0 emptyDB).1 =
      some (summaryRowOf "p1" cexSnapA.summarized_review "m" "h") ∧
    (summaryRowOf "p1" cexSnapA.summarized_review "m" "h").citations = "\x7b\x7d" :=
  c9_summary_citations_always_empty (fun _ => false) "p1" cexSnapA "m" "h" 0 emptyDB rfl

lemma filter_key_of_filter_other (keyP delP : ReviewRow → Bool)
    (himp : ∀ a, keyP a = true → delP a = true) (l : List ReviewRow) :
    (l.filter delP).filter keyP = l.filter keyP := by
  induction l with
  | nil => rfl
  | cons a l ih =>
    cases hd : delP a
    · have hk : keyP a = false := by
        cases hka : keyP a
        · rfl
        · rw [himp a hka] at hd
          cases hd
      simp [List.filter, hd, hk, ih]
    · cases hk : keyP a <;> simp [List.filter, hd, hk, ih]

lemma reviewsFor_exec_nontouching (pid ret : String) (s : Stmt) (db : DBState)
    (h : stmtTouches pid ret s = false) :
    reviewsFor pid ret (execStmt s db) = reviewsFor pid ret db := by
  cases s with
  | upsertOffer r => rfl
  | insertPriceHistory r => rfl
  | upsertRating r => rfl
  | upsertSpec r w => rfl
  | upsertSummary r => rfl
  | deleteReviews p rr =>
    simp only [stmtTouches] at h
    simp only [reviewsFor, execStmt]
    apply filter_key_of_filter_other
    intro a hka
    simp only [Bool.and_eq_true, beq_iff_eq] at hka
    obtain ⟨ha1, ha2⟩ := hka
    simp only [Bool.not_eq_true']
    rw [ha1, ha2]
    cases hpp : (pid == p)
    · simp
    · cases hrr : (ret == rr)
      · simp
      · have h1 : p = pid := (eq_of_beq hpp).symm
        have h2 : rr = ret := (eq_of_beq hrr).symm
        rw [h1, h2] at h
        simp at h
  | insertReviews rows =>
    simp only [stmtTouches] at h
    simp only [reviewsFor, execStmt]
    rw [List.filter_append]
    have hnil : rows.filter (fun r => r.product_id == pid && r.retailer == ret) = [] := by
      rw [List.filter_eq_nil_iff]
      intro a ha hpa
      have h2 : rows.any (fun w => w.product_id == pid && w.retailer == ret) = true :=
        List.any_eq_true.mpr ⟨a, ha, hpa⟩
      rw [h] at h2
      cases h2
    rw [hnil, List.append_nil]

lemma reviewsFor_applyStmts_nontouching (pid ret : String) (L : List Stmt) :
    ∀ db : DBState, (∀ s ∈ L, stmtTouches pid ret s = false) →
      reviewsFor pid ret (applyStmts L db) = reviewsFor pid ret db := by
  induction L with
  | nil => intro db _; rfl
  | cons s L ih =>
    intro db h
    rw [applyStmts_cons]
    rw [ih (execStmt s db) (fun s2 hs2 => h s2 (List.mem_cons_of_mem s hs2))]
    exact reviewsFor_exec_nontouching pid ret s db (h s (List.mem_cons_self s L))

lemma offerStmts_nontouching (pid nm : String) (today : Nat) (d : PyPlatformData)
    (pid2 ret : String) :
    ∀ s ∈ offerStmts pid nm today d, stmtTouches pid2 ret s = false := by
  intro s hs
  unfold offerStmts at hs
  cases hp : d.price with
  | none => rw [hp] at hs; simp at hs
  | some price =>
    rw [hp] at hs
    rw [List.mem_append] at hs
    rcases hs with hs | hs
    · simp at hs
      subst hs
      rfl
    · cases ha : price.amount with
      | none => rw [ha] at hs; simp at hs
      | some amt =>
        rw [ha] at hs
        simp at hs
        subst hs
        rfl

lemma ratingStmts_nontouching (pid nm : String) (d : PyPlatformData) (pid2 ret : String) :
    ∀ s ∈ ratingStmts pid nm d, stmtTouches pid2 ret s = false := by
  intro s hs
  unfold ratingStmts at hs
  cases hr : d.rating with
  | none => rw [hr] at hs; simp at hs
  | some rating =>
    rw [hr] at hs
    simp at hs
    subst hs
    rfl

lemma editorialStmts_nontouching (pid : String) (b : PyEditorialBlock) (pid2 ret : String) :
    ∀ s ∈ editorialStmts pid b, stmtTouches pid2 ret s = false := by
  intro s hs
  unfold editorialStmts at hs
  obtain ⟨q, hq, hqe⟩ := List.mem_map.mp hs
  subst hqe
  rfl

lemma platformEntryStmts_nontouching (pid : String) (today : Nat) (ret nm : String)
    (e : PlatformEntry) (hnm : nm ≠ ret) :
    ∀ s ∈ platformEntryStmts pid today nm e, stmtTouches pid ret s = false := by
  intro s hs
  unfold platformEntryStmts at hs
  cases hedi : (nm == "editorial") with
  | true =>
    rw [if_pos (by rw [hedi])] at hs
    cases e with
    | eblock b => exact editorialStmts_nontouching pid b pid ret s hs
    | pdata d => simp at hs
    | other => simp at hs
  | false =>
    rw [if_neg (by rw [hedi]; simp)] at hs
    cases e with
    | eblock b => simp at hs
    | other => simp at hs
    | pdata d =>
      unfold platformDataStmts at hs
      rw [List.mem_append] at hs
      rcases hs with hs | hs
      · rw [List.mem_append] at hs
        rcases hs with hs | hs
        · exact offerStmts_nontouching pid nm today d pid ret s hs
        · exact ratingStmts_nontouching pid nm d pid ret s hs
      · unfold reviewStmts at hs
        cases hv : d.reviews with
        | none => rw [hv] at hs; simp at hs
        | some revs =>
          rw [hv] at hs
          by_cases hre : revs.isEmpty
          · simp [hre] at hs
          · simp [hre] at hs
            rcases hs with rfl | rfl
            · simp only [stmtTouches, beq_self_eq_true, Bool.true_and]
              exact beq_eq_false_iff_ne.mpr hnm
            · simp only [stmtTouches]
              rw [List.any_eq_false]
              intro w hw
              obtain ⟨rv, hrv, hrw⟩ := List.mem_map.mp (List.mem_of_mem_take hw)
              subst hrw
              simp only [mkReviewRow, Bool.and_eq_true, beq_iff_eq, not_and]
              intro _
              exact hnm

lemma specificationsStmts_nontouching (pid : String) (sp : SpecificationsIn)
    (pid2 ret : String) :
    ∀ s ∈ specificationsStmts pid sp, stmtTouches pid2 ret s = false := by
  intro s hs
  unfold specificationsStmts at hs
  obtain ⟨kv, hkv, hmatch⟩ := List.mem_filterMap.mp hs
  cases hv : kv.2 with
  | none => rw [hv] at hmatch; cases hmatch
  | some v =>
    rw [hv] at hmatch
    cases hmatch
    rfl

lemma reviewsFor_after_platform (pid ret : String) (today : Nat) (d : PyPlatformData)
    (l : List PyReview) (X : DBState)
    (hrev : d.reviews = some l) (hne : l ≠ []) (hed : ret ≠ "editorial") :
    reviewsFor pid ret (applyStmts (platformEntryStmts pid today ret (PlatformEntry.pdata d)) X) =
      (l.take 5).map (mkReviewRow pid ret) := by
  have hunf : platformEntryStmts pid today ret (PlatformEntry.pdata d) =
      platformDataStmts pid today ret d := by
    simp [platformEntryStmts, beq_eq_false_iff_ne.mpr hed]
  rw [hunf]
  have hrs : reviewStmts pid ret d =
      [Stmt.deleteReviews pid ret,
       Stmt.insertReviews ((l.take 5).map (mkReviewRow pid ret))] := by
    unfold reviewStmts
    rw [hrev]
    simp [List.isEmpty_iff, hne]
  unfold platformDataStmts
  rw [hrs]
  rw [applyStmts_append, applyStmts_append]
  rw [applyStmts_cons, applyStmts_cons, applyStmts_nil]
  set Y := applyStmts (ratingStmts pid ret d) (applyStmts (offerStmts pid ret today d) X)
  simp only [reviewsFor, execStmt]
  rw [List.filter_append]
  have h1 : (Y.reviews.filter (fun r => !(r.product_id == pid && r.retailer == ret))).filter
      (fun r => r.product_id == pid && r.retailer == ret) = [] := by
    rw [List.filter_eq_nil_iff]
    intro a ha hpa
    have hdel := (List.mem_filter.mp ha).2
    rw [hpa] at hdel
    cases hdel
  rw [h1, List.nil_append]
  rw [List.filter_eq_self.mpr]
  intro a ha
  obtain ⟨rv, hrv, hrw⟩ := List.mem_map.mp ha
  subst hrw
  simp [mkReviewRow]

lemma reviewsFor_after_storeB (failAt : Nat → Bool) (pid mn ph : String) (today : Nat)
    (B : RootSnapshotIn) (db : DBState) (ret : String) (d : PyPlatformData)
    (l : List PyReview)
    (hmem : (ret, PlatformEntry.pdata d) ∈ B.platforms)
    (hnodup : (B.platforms.map Prod.fst).Nodup)
    (hrev : d.reviews = some l) (hne : l ≠ []) (hed : ret ≠ "editorial")
    (hok : (storeSnapshot failAt pid B mn ph today db).2 = true) :
    reviewsFor pid ret (storeSnapshot failAt pid B mn ph today db).1 =
      (l.take 5).map (mkReviewRow pid ret) := by
  unfold storeSnapshot at hok ⊢
  cases hrun : runStmts failAt (snapStmts pid B mn ph today) 0 db with
  | none =>
    rw [hrun] at hok
    simp at hok
  | some db2 =>
    show reviewsFor pid ret db2 = (l.take 5).map (mkReviewRow pid ret)
    have hdb2 := runStmts_some_eq failAt _ 0 db db2 hrun
    rw [hdb2]
    obtain ⟨l1, l2, hB⟩ := List.append_of_mem hmem
    have hkeys := hnodup
    rw [hB, List.map_append, List.map_cons] at hkeys
    have hmid := List.nodup_middle.mp hkeys
    have hretnot : ret ∉ (l1.map Prod.fst ++ l2.map Prod.fst) := (List.nodup_cons.mp hmid).1
    have hret1 : ∀ p ∈ l1, p.1 ≠ ret := by
      intro p hp heq
      exact hretnot (List.mem_append.mpr (Or.inl (heq ▸ List.mem_map_of_mem Prod.fst hp)))
    have hret2 : ∀ p ∈ l2, p.1 ≠ ret := by
      intro p hp heq
      exact hretnot (List.mem_append.mpr (Or.inr (heq ▸ List.mem_map_of_mem Prod.fst hp)))
    unfold snapStmts
    rw [hB, List.map_append, List.map_cons, List.flatten_append, List.flatten_cons]
    simp only
    rw [applyStmts_append]
    rw [reviewsFor_applyStmts_nontouching pid ret
      [summaryStmt pid B.summarized_review mn ph] _
      (by
        intro s hs
        simp at hs
        subst hs
        rfl)]
    rw [applyStmts_append]
    rw [reviewsFor_applyStmts_nontouching pid ret
      (specificationsStmts pid B.specifications) _
      (fun s hs => specificationsStmts_nontouching pid B.specifications pid ret s hs)]
    rw [applyStmts_append, applyStmts_append]
    rw [reviewsFor_applyStmts_nontouching pid ret
      ((l2.map (fun p => platformEntryStmts pid today p.1 p.2)).flatten) _
      (by
        intro s hs
        obtain ⟨stl, hstl, hsin⟩ := List.mem_flatten.mp hs
        obtain ⟨p, hp, hpe⟩ := List.mem_map.mp hstl
        subst hpe
        exact platformEntryStmts_nontouching pid today ret p.1 p.2 (hret2 p hp) s hsin)]
    exact reviewsFor_after_platform pid ret today d l _ hrev hne hed

/-- Claim C1 counterexample: after storing snapshot A (one amazon review)
and then snapshot B (no reviews for amazon), the amazon review rows still
hold A's review — not only B's (empty) reviews — because the delete-then-
insert only runs when the incoming snapshot has a non-empty reviews list. -/
theorem c1_counterexample :
    reviewsFor "p1" "amazon"
        (storeSnapshot (fun _ => false) "p1" cexSnapB "m" "h" 0
          ((storeSnapshot (fun _ => false) "p1" cexSnapA "m" "h" 0 emptyDB).1)).1 =
      [⟨"p1", "amazon", some "al", some 4, none, some "good", none, none⟩] ∧
    (∃ d, ("amazon", PlatformEntry.pdata d) ∈ cexSnapB.platforms ∧ d.reviews = none) := by
  constructor
  · decide
  · exact ⟨⟨none, none, none, none, none⟩, by decide, rfl⟩

/-- Claim C1 (amended): when the second snapshot B carries a non-empty
reviews list for the retailer (in a retail `PlatformData` entry), storing A
then B leaves in the reviews table exactly B's first ≤5 review rows for that
`(product_id, retailer)` — never a union with A's; when B carries no reviews
for the retailer, A's rows are left in place (see the counterexample). -/
theorem c1_second_store_replaces_reviews (failAtA failAtB : Nat → Bool)
    (pid mnA phA mnB phB : String) (todayA todayB : Nat)
    (A B : RootSnapshotIn) (db0 : DBState) (ret : String) (d : PyPlatformData)
    (l : List PyReview)
    (hmem : (ret, PlatformEntry.pdata d) ∈ B.platforms)
    (hnodup : (B.platforms.map Prod.fst).Nodup)
    (hrev : d.reviews = some l) (hne : l ≠ []) (hed : ret ≠ "editorial")
    (hokA : (storeSnapshot failAtA pid A mnA phA todayA db0).2 = true)
    (hokB : (storeSnapshot failAtB pid B mnB phB todayB
        ((storeSnapshot failAtA pid A mnA phA todayA db0).1)).2 = true) :
    reviewsFor pid ret
        (storeSnapshot failAtB pid B mnB phB todayB
          ((storeSnapshot failAtA pid A mnA phA todayA db0).1)).1 =
      (l.take 5).map (mkReviewRow pid ret) ∧
    (reviewsFor pid ret
        (storeSnapshot failAtB pid B mnB phB todayB
          ((storeSnapshot failAtA pid A mnA phA todayA db0).1)).1).length ≤ 5 := by
  have h := reviewsFor_after_storeB failAtB pid mnB phB todayB B
    ((storeSnapshot failAtA pid A mnA phA todayA db0).1) ret d l
    hmem hnodup hrev hne hed hokB
  refine ⟨h, ?_⟩
  rw [h, List.length_map, List.length_take]
  exact min_le_left _ _

/-- Witness for C1's amended theorem: storing the one-review fixture A then
the different-review fixture C leaves exactly C's review row. -/
theorem c1_witness :
    reviewsFor "p1" "amazon"
        (storeSnapshot (fun _ => false) "p1" cexSnapC "m" "h" 0
          ((storeSnapshot (fun _ => false) "p1" cexSnapA "m" "h" 0 emptyDB).1)).1 =
      (([⟨some "bee", some 5, none, some "nice", none, none⟩] : List PyReview).take 5).map
        (mkReviewRow "p1" "amazon") ∧
    (reviewsFor "p1" "amazon"
        (storeSnapshot (fun _ => false) "p1" cexSnapC "m" "h" 0
          ((storeSnapshot (fun _ => false) "p1" cexSnapA "m" "h" 0 emptyDB).1)).1).length ≤ 5 :=
  c1_second_store_replaces_reviews (fun _ => false) (fun _ => false) "p1" "m" "h" "m" "h" 0 0
    cexSnapA cexSnapC emptyDB "amazon"
    ⟨none, none, none, some [⟨some "bee", some 5, none, some "nice", none, none⟩], none⟩
    [⟨some "bee", some 5, none, some "nice", none, none⟩]
    (by decide) (by decide) rfl (by decide) (by decide) rfl rfl

end SkinDB
